import Mathlib

/-!
Shallow embedding of the dynamic-cert-issuance backend core:
`BatchService` (ZIP/manifest validation and batch breakdown) and
`CertificateIssuanceService` (per-certificate state machine, retry /
reissue / republish and bulk operations), together with the
`start-issuance` route guard.

Conventions of the embedding:
* JS strings are Lean `String`s; `toLowerCase` is `String.toLower`,
  `trim` is `String.trim`, `includes` is substring containment.
* A spreadsheet row (the result of `XLSX.utils.sheet_to_json`) is an
  ordered association list of header/value pairs, reflecting JS object
  key order.
* Mongo documents are entries of an association list keyed by document
  id; `findByIdAndUpdate` maps the matching entries.
* Fallible I/O (XLSX parsing, PDF stamping) is an explicit input of the
  embedding: an `ExcelInput` value, resp. an `Except String String`
  stamping outcome.
* `Math.ceil (n * 0.1)` for the chunk sizes that occur here (bounded by
  the configured batch size) equals exact rational ceiling, embedded as
  `(n + 9) / 10` on `Nat`.
-/

namespace CertIssuance

/-- ASCII lower-casing of one character (JS `toLowerCase` on the ASCII
headers and filenames that occur here). -/
def lowerChar (c : Char) : Char :=
  if 65 ≤ c.toNat ∧ c.toNat ≤ 90 then Char.ofNat (c.toNat + 32) else c

/-- JS `s.toLowerCase()`, as a character list. -/
def lowerStr (s : String) : List Char := s.data.map lowerChar

/-- Boolean prefix test on character lists. -/
def isPrefixB : List Char → List Char → Bool
  | [], _ => true
  | _ :: _, [] => false
  | a :: as, b :: bs => a == b && isPrefixB as bs

/-- Boolean substring (contiguous infix) test on character lists. -/
def isInfixB : List Char → List Char → Bool
  | pat, [] => pat.isEmpty
  | pat, b :: rest => isPrefixB pat (b :: rest) || isInfixB pat rest

/-- JS `a.toLowerCase().includes(b.toLowerCase())`: case-insensitive
substring containment. -/
def hContains (s pat : String) : Bool := isInfixB (lowerStr pat) (lowerStr s)

/-- JS whitespace for `trim` (the ASCII whitespace that occurs here). -/
def isWSChar (c : Char) : Bool := c == ' ' || c == '\t' || c == '\n' || c == '\r'

/-- JS `s.trim()`: strip leading and trailing whitespace. -/
def trimStr (s : String) : String :=
  ⟨((s.data.dropWhile isWSChar).reverse.dropWhile isWSChar).reverse⟩

/-- One entry of `batchBreakdown` (`BatchBreakdown` in `types`). -/
structure BatchBreakdown where
  batchNumber : Nat
  certificateCount : Nat
  estimatedTime : Nat
deriving Repr, DecidableEq

/-- Loop body of `BatchService.calculateBatchBreakdown`, with explicit
fuel: the source `while (remaining > 0)` loop strictly decreases
`remaining` whenever the configured batch size is positive, so fuel
`totalCerts` always suffices. -/
def breakdownGo (B : Nat) : Nat → Nat → Nat → List BatchBreakdown
  | 0, _, _ => []
  | fuel + 1, remaining, batchNumber =>
    if remaining = 0 then []
    else
      let batchSize := min remaining B
      { batchNumber := batchNumber
        certificateCount := batchSize
        estimatedTime := (batchSize + 9) / 10 } ::
        breakdownGo B fuel (remaining - batchSize) (batchNumber + 1)

/-- `BatchService.calculateBatchBreakdown`, parameterised by the
configured `BATCH_SIZE` (env-overridable, default 50). -/
def calculateBatchBreakdown (B totalCerts : Nat) : List BatchBreakdown :=
  breakdownGo B totalCerts totalCerts 1

/-- The configured `BATCH_SIZE` default. -/
def BATCH_SIZE : Nat := 50

/-- The configured `MAX_CERTIFICATES` default. -/
def MAX_CERTIFICATES : Nat := 250

/-- A spreadsheet row as produced by `XLSX.utils.sheet_to_json`: an
ordered association list of header/value pairs (JS object key order),
values already coerced to strings as by JS `String(...)`. -/
abbrev Row := List (String × String)

/-- JS `Object.keys(row)`. -/
def rowKeys (r : Row) : List String := r.map Prod.fst

/-- JS `row[key]` (headers are unique in a parsed sheet; first match). -/
def rowGet (r : Row) (k : String) : String :=
  match r.find? (fun p => p.1 == k) with
  | some p => p.2
  | none => ""

/-- Outcome of `XLSX.readFile` + sheet traversal: either the thrown
parse error (unreadable file, unparseable cells) or the list of sheets,
each a list of rows. -/
inductive ExcelInput where
  | readError (msg : String)
  | workbook (sheets : List (List Row))
deriving Repr, DecidableEq

/-- `ValidationResults` from `types`. -/
structure ValidationResults where
  isValid : Bool
  totalEntries : Nat
  validRecords : Nat
  invalidRecords : Nat
  estimatedProcessingTime : Nat
  errors : List String
  missingPdfs : List String
  extraPdfs : List String
  batchBreakdown : List BatchBreakdown
deriving Repr, DecidableEq

/-- `BatchService.createFailedValidation`. -/
def createFailedValidation (errors : List String) : ValidationResults where
  isValid := false
  totalEntries := 0
  validRecords := 0
  invalidRecords := 0
  estimatedProcessingTime := 0
  errors := errors
  missingPdfs := []
  extraPdfs := []
  batchBreakdown := []

/-- The first-row structure check of `validateBatchFiles`:
`requiredColumns = ['certificateId', 'filename']`, a column is missing
when no first-row header case-insensitively contains it. -/
def missingRequiredColumns (firstRow : Row) : List String :=
  ["certificateId", "filename"].filter fun col =>
    ! (rowKeys firstRow).any fun key => hContains key col

/-- Per-row column discovery for the certificate-ID column:
header contains `certificateid` or `certificate_id`. -/
def findCertIdKey (r : Row) : Option String :=
  (rowKeys r).find? fun key =>
    hContains key "certificateid" || hContains key "certificate_id"

/-- Per-row column discovery for the filename column:
header contains `filename` or `file_name`. -/
def findFilenameKey (r : Row) : Option String :=
  (rowKeys r).find? fun key =>
    hContains key "filename" || hContains key "file_name"

/-- Accumulator of the row-extraction loop of `validateBatchFiles`:
`errors` so far, the `seenIds` / `seenFilenames` sets, and the accepted
`certificates` as (certificateId, filename) pairs, all in push order. -/
structure ScanState where
  errors : List String
  seenIds : List String
  seenFilenames : List String
  certificates : List (String × String)
deriving Repr, DecidableEq

/-- One iteration of the row-extraction loop (`idx` is the 0-based row
index; messages use `idx + 2` as in the source). -/
def scanRow (st : ScanState) (idx : Nat) (row : Row) : ScanState :=
  match findCertIdKey row, findFilenameKey row with
  | some ck, some fk =>
    let certificateId := trimStr (rowGet row ck)
    let filename := trimStr (rowGet row fk)
    if certificateId = "" ∨ filename = "" then
      { st with errors := st.errors ++
          ["Row " ++ toString (idx + 2) ++ ": Empty certificate ID or filename"] }
    else if certificateId ∈ st.seenIds then
      { st with errors := st.errors ++
          ["Row " ++ toString (idx + 2) ++ ": Duplicate certificate ID: " ++ certificateId] }
    else if filename ∈ st.seenFilenames then
      { st with errors := st.errors ++
          ["Row " ++ toString (idx + 2) ++ ": Duplicate filename: " ++ filename] }
    else
      { st with
          seenIds := st.seenIds ++ [certificateId]
          seenFilenames := st.seenFilenames ++ [filename]
          certificates := st.certificates ++ [(certificateId, filename)] }
  | _, _ =>
    { st with errors := st.errors ++
        ["Row " ++ toString (idx + 2) ++ ": Missing certificate ID or filename"] }

/-- The row-extraction loop over all data rows. -/
def scanRowsAux : ScanState → Nat → List Row → ScanState
  | st, _, [] => st
  | st, i, r :: rs => scanRowsAux (scanRow st i r) (i + 1) rs

/-- `list.slice(0, 5).join(', ')` plus an ellipsis when more than 5. -/
def summarizeFirst5 (l : List String) : String :=
  String.intercalate ", " (l.take 5) ++ (if 5 < l.length then "..." else "")

/-- Tail of `validateBatchFiles` after the row loop: certificate-count
limit, PDF cross-check, error summaries, and assembly of the result. -/
def finishValidation (st : ScanState) (pdfFiles : List String) : ValidationResults :=
  let errors1 :=
    if MAX_CERTIFICATES < st.certificates.length then
      st.errors ++ ["Too many certificates: " ++ toString st.certificates.length ++
        ". Maximum allowed: " ++ toString MAX_CERTIFICATES]
    else st.errors
  let excelFilenames := st.certificates.map Prod.snd
  let missingPdfs := excelFilenames.filter fun f => f ∉ pdfFiles
  let extraPdfs := pdfFiles.filter fun p => p ∉ excelFilenames
  let errors2 :=
    if missingPdfs.isEmpty then errors1
    else errors1 ++ ["Missing PDF files: " ++ summarizeFirst5 missingPdfs]
  let errors3 :=
    if extraPdfs.isEmpty then errors2
    else errors2 ++ ["Extra PDF files not in Excel: " ++ summarizeFirst5 extraPdfs]
  let validRecords := st.certificates.length - missingPdfs.length
  { isValid := errors3.isEmpty && missingPdfs.isEmpty
    totalEntries := st.certificates.length
    validRecords := validRecords
    invalidRecords := st.certificates.length - validRecords
    estimatedProcessingTime := (validRecords + 9) / 10
    errors := errors3
    missingPdfs := missingPdfs
    extraPdfs := extraPdfs
    batchBreakdown := calculateBatchBreakdown BATCH_SIZE validRecords }

/-- The row loop plus cross-check, starting from the empty accumulator. -/
def scanRows (rows : List Row) (pdfFiles : List String) : ValidationResults :=
  finishValidation (scanRowsAux ⟨[], [], [], []⟩ 0 rows) pdfFiles

/-- `BatchService.validateBatchFiles`. -/
def validateBatchFiles (excel : ExcelInput) (pdfFiles : List String) : ValidationResults :=
  match excel with
  | .readError msg =>
    createFailedValidation ["Failed to read Excel file: " ++ msg]
  | .workbook sheets =>
    match sheets with
    | [] => createFailedValidation ["Excel file has no worksheets"]
    | rows :: _ =>
      match rows with
      | [] => createFailedValidation ["Excel file is empty"]
      | firstRow :: _ =>
        let missing := missingRequiredColumns firstRow
        if missing.isEmpty then scanRows rows pdfFiles
        else
          createFailedValidation
            ["Excel file missing required columns: " ++ String.intercalate ", " missing]

/-- JS `file.toLowerCase().endsWith(ext)`. -/
def endsWithI (file ext : String) : Bool :=
  isPrefixB ext.data.reverse (lowerStr file).reverse

/-- The file-discovery and validation part of `BatchService.processZipFile`:
given the extracted file list and the Excel parse outcome, either the
thrown error (no Excel file in the ZIP) or the computed
`ValidationResults` together with the resulting batch status. -/
def processZipFile (files : List String) (excel : ExcelInput) :
    Except String (ValidationResults × Bool) :=
  match files.find? (fun f => endsWithI f ".xlsx" || endsWithI f ".xls") with
  | none => .error "No Excel file found in ZIP. Please include a certificate mapping file."
  | some _ =>
    let pdfFiles := files.filter fun f => endsWithI f ".pdf"
    let validationResults := validateBatchFiles excel pdfFiles
    .ok (validationResults, validationResults.isValid)

/-- Certificate status values (`Certificate.status`). -/
inductive CertStatus where
  | pending
  | inProgress
  | issued
  | failed
deriving Repr, DecidableEq

/-- A stored certificate document (`CertificateModel`). Timestamps are
abstract instants (`Nat`). -/
structure CertRecord where
  certificateId : String
  batchId : String
  projectId : String
  filename : String
  recipientName : Option String := none
  recipientEmail : Option String := none
  status : CertStatus
  errorMessage : Option String := none
  processingStartedAt : Option Nat := none
  processingCompletedAt : Option Nat := none
  issuedPdfPath : Option String := none
  qrCodeData : Option String := none
  verificationUrl : Option String := none
  updatedAt : Nat := 0
deriving Repr, DecidableEq

/-- The certificate collection: association list keyed by document id. -/
abbrev CertStore := List (String × CertRecord)

/-- `CertificateModel.findById`: the document with the given id
(ids are unique in the collection; first match). -/
def findById : CertStore → String → Option CertRecord
  | [], _ => none
  | p :: ps, id => if p.1 == id then some p.2 else findById ps id

/-- `CertificateModel.findByIdAndUpdate`: apply the field updates to the
document with the given id. -/
def findByIdAndUpdate : CertStore → String → (CertRecord → CertRecord) → CertStore
  | [], _, _ => []
  | p :: ps, id, f =>
    (if p.1 == id then (p.1, f p.2) else p) :: findByIdAndUpdate ps id f

/-- The verification URL built in `processCertificate`. -/
def verificationUrlFor (certificateId : String) : String :=
  "https://verify.example.com?id=" ++ certificateId

/-- Model of `QRCode.toDataURL`: a deterministic data-URL rendering of
the encoded payload. -/
def qrToDataURL (url : String) : String :=
  "data:image/png;base64,<" ++ url ++ ">"

/-- `CertificateIssuanceService.processCertificate` on one certificate:
mark in-progress, then issued or failed according to the stamping
outcome `stamp` (the result of `embedQrCodeInPdf` + `QRCode.toDataURL`:
`.ok issuedPdfPath` or `.error message`). `t1`/`t2` are the two
wall-clock instants taken during processing. -/
def processCertificate (store : CertStore) (cert : CertRecord) (dbId : String)
    (stamp : Except String String) (t1 t2 : Nat) : CertStore :=
  let s1 := findByIdAndUpdate store dbId fun c =>
    { c with status := .inProgress, processingStartedAt := some t1, updatedAt := t1 }
  match stamp with
  | .ok pdfPath =>
    findByIdAndUpdate s1 dbId fun c =>
      { c with status := .issued
               qrCodeData := some (qrToDataURL (verificationUrlFor cert.certificateId))
               verificationUrl := some (verificationUrlFor cert.certificateId)
               issuedPdfPath := some pdfPath
               processingCompletedAt := some t2
               updatedAt := t2 }
  | .error msg =>
    findByIdAndUpdate s1 dbId fun c =>
      { c with status := .failed
               errorMessage := some msg
               processingCompletedAt := some t2
               updatedAt := t2 }

/-- The field updates of the reset performed by `retryCertificate` and
`reissueCertificate`: status back to `pending`, error message and both
processing timestamps cleared. -/
def resetForReprocessing (t0 : Nat) (c : CertRecord) : CertRecord :=
  { c with status := .pending
           errorMessage := none
           processingStartedAt := none
           processingCompletedAt := none
           updatedAt := t0 }

/-- `CertificateIssuanceService.retryCertificate`: look up the
certificate, reset it, then (after the fixed `setTimeout` delay)
re-process that one certificate. -/
def retryCertificate (store : CertStore) (id : String)
    (stamp : Except String String) (t0 t1 t2 : Nat) : Except String CertStore :=
  match findById store id with
  | none => .error "Certificate not found"
  | some cert =>
    .ok (processCertificate (findByIdAndUpdate store id (resetForReprocessing t0))
          cert id stamp t1 t2)

/-- `CertificateIssuanceService.reissueCertificate` (same body as
`retryCertificate` in the source). -/
def reissueCertificate (store : CertStore) (id : String)
    (stamp : Except String String) (t0 t1 t2 : Nat) : Except String CertStore :=
  match findById store id with
  | none => .error "Certificate not found"
  | some cert =>
    .ok (processCertificate (findByIdAndUpdate store id (resetForReprocessing t0))
          cert id stamp t1 t2)

/-- `CertificateIssuanceService.bulkRetryCertificates`: select the
certificates among `ids` whose status is `failed`, fail if none, else
run the single-certificate retry path per selected certificate. -/
def bulkRetryCertificates (store : CertStore) (ids : List String)
    (stamp : String → Except String String) (t0 t1 t2 : Nat) :
    Except String CertStore :=
  let certificates := store.filter fun p =>
    ids.contains p.1 && decide (p.2.status = CertStatus.failed)
  if certificates.isEmpty then .error "No failed certificates found to retry"
  else certificates.foldlM (fun s p => retryCertificate s p.1 (stamp p.1) t0 t1 t2) store

/-- `CertificateIssuanceService.bulkReissueCertificates`: select the
certificates among `ids` regardless of status, fail if none, else run
the single-certificate reissue path per selected certificate. -/
def bulkReissueCertificates (store : CertStore) (ids : List String)
    (stamp : String → Except String String) (t0 t1 t2 : Nat) :
    Except String CertStore :=
  let certificates := store.filter fun p => ids.contains p.1
  if certificates.isEmpty then .error "No certificates found to reissue"
  else certificates.foldlM (fun s p => reissueCertificate s p.1 (stamp p.1) t0 t1 t2) store

/-- The issued-PDF blob store (path, content). `republishCertificate`
performs no file I/O, so it passes this through unchanged. -/
abbrev BlobStore := List (String × Nat)

/-- `CertificateIssuanceService.republishCertificate`: valid only from
`issued`; rewrites `verificationUrl` to a timestamped URL (plus
`updatedAt`), touching nothing else and no file. -/
def republishCertificate (store : CertStore) (blobs : BlobStore)
    (id : String) (now : Nat) : Option String × CertStore × BlobStore :=
  match findById store id with
  | none => (some "Certificate not found", store, blobs)
  | some c =>
    if c.status = CertStatus.issued then
      (none,
       findByIdAndUpdate store id (fun c0 =>
         { c0 with updatedAt := now
                   verificationUrl := some (verificationUrlFor c.certificateId ++
                     "&t=" ++ toString now) }),
       blobs)
    else (some "Can only republish issued certificates", store, blobs)

/-- Batch status values (`Batch.status`). -/
inductive BatchStatus where
  | pending
  | processing
  | completed
  | failed
deriving Repr, DecidableEq

/-- A stored batch document (`BatchModel`). -/
structure BatchRec where
  projectId : String
  status : BatchStatus
  validationResults : Option ValidationResults := none
  processedCertificates : Nat := 0
  updatedAt : Nat := 0
deriving Repr, DecidableEq

/-- The batch collection: association list keyed by document id. -/
abbrev BatchStore := List (String × BatchRec)

/-- `BatchModel.findById`. -/
def findBatch : BatchStore → String → Option BatchRec
  | [], _ => none
  | p :: ps, id => if p.1 == id then some p.2 else findBatch ps id

/-- `BatchModel.findByIdAndUpdate`. -/
def updateBatch : BatchStore → String → (BatchRec → BatchRec) → BatchStore
  | [], _, _ => []
  | p :: ps, id, f =>
    (if p.1 == id then (p.1, f p.2) else p) :: updateBatch ps id f

/-- The mutable state reached through the orchestrator: the in-memory
`processingBatches` lock keys plus the record-store collections. -/
structure World where
  locks : List String
  projects : List String
  batches : BatchStore
  certificates : CertStore
deriving Repr, DecidableEq

/-- How one orchestration run (the `try`/`catch` body of
`startBatchProcessing`) ends: normal completion, an error caught by the
`catch` block (batch marked failed, promise resolves), or an exception
escaping the `catch` block itself (promise rejects). -/
inductive RunOutcome where
  | success
  | caughtError (msg : String)
  | escapedError (msg : String)
deriving Repr, DecidableEq

/-- `CertificateIssuanceService.startBatchProcessing`: lock check, lock
set, the `try`/`catch` body per `outcome`, and the `finally` lock
release. Returns the thrown error (if any) and the final state. -/
def startBatchProcessing (w : World) (batchId : String)
    (stamp : String → Except String String) (outcome : RunOutcome) (t : Nat) :
    Option String × World :=
  if batchId ∈ w.locks then (some "Batch is already being processed", w)
  else
    let w1 : World := { w with locks := batchId :: w.locks }
    match outcome with
    | .success =>
      let w2 : World := { w1 with batches := updateBatch w1.batches batchId fun b =>
        { b with status := .processing, updatedAt := t } }
      let pend := w2.certificates.filter fun p =>
        decide (p.2.batchId = batchId ∧ p.2.status = CertStatus.pending)
      let certs := pend.foldl (fun s p => processCertificate s p.2 p.1 (stamp p.1) t t)
        w2.certificates
      let w3 : World := { w2 with certificates := certs }
      let w4 : World := { w3 with batches := updateBatch w3.batches batchId fun b =>
        { b with status := .completed, processedCertificates := pend.length, updatedAt := t } }
      (none, { w4 with locks := w4.locks.erase batchId })
    | .caughtError _ =>
      let w2 : World := { w1 with batches := updateBatch w1.batches batchId fun b =>
        { b with status := .processing, updatedAt := t } }
      let w3 : World := { w2 with batches := updateBatch w2.batches batchId fun b =>
        { b with status := .failed, updatedAt := t } }
      (none, { w3 with locks := w3.locks.erase batchId })
    | .escapedError msg =>
      let w2 : World := { w1 with batches := updateBatch w1.batches batchId fun b =>
        { b with status := .processing, updatedAt := t } }
      (some msg, { w2 with locks := w2.locks.erase batchId })

/-- An HTTP JSON response of the `start-issuance` route, reduced to the
fields the embedding needs. -/
structure RouteResponse where
  success : Bool
  error : Option String := none
  message : Option String := none
deriving Repr, DecidableEq

/-- JS truthiness of `batch.validationResults?.isValid`. -/
def validIsTrue : Option ValidationResults → Bool
  | none => false
  | some v => v.isValid

/-- The `POST /:id/batches/:batchId/start-issuance` route handler:
guards (project, batch, status, validity), then fires
`startBatchProcessing` in the background. -/
def startIssuanceRoute (w : World) (projectId batchId : String)
    (stamp : String → Except String String) (outcome : RunOutcome) (t : Nat) :
    RouteResponse × World :=
  if projectId ∉ w.projects then
    ({ success := false, error := some "Project not found" }, w)
  else
    match findBatch w.batches batchId with
    | none => ({ success := false, error := some "Batch not found" }, w)
    | some batch =>
      if batch.projectId ≠ projectId then
        ({ success := false, error := some "Batch not found" }, w)
      else if batch.status = BatchStatus.processing then
        ({ success := false, error := some "Batch is already being processed" }, w)
      else if batch.status = BatchStatus.completed then
        ({ success := false, error := some "Batch has already been processed" }, w)
      else if validIsTrue batch.validationResults = false then
        ({ success := false
           error := some "Cannot process invalid batch. Please fix validation errors first." }, w)
      else
        ({ success := true, message := some "Certificate issuance started successfully" },
         (startBatchProcessing w batchId stamp outcome t).2)

/-- One created certificate record of
`BatchService.createCertificateRecords`. -/
structure NewCertRecord where
  projectId : String
  batchId : String
  certificateId : String
  filename : String
  recipientName : Option String
  recipientEmail : Option String
  status : CertStatus
deriving Repr, DecidableEq

/-- Recipient-name column discovery in `createCertificateRecords`:
first key containing `name` or `recipient` (case-insensitive). -/
def findNameKey (r : Row) : Option String :=
  (rowKeys r).find? fun key => hContains key "name" || hContains key "recipient"

/-- Email column discovery in `createCertificateRecords`. -/
def findEmailKey (r : Row) : Option String :=
  (rowKeys r).find? fun key => hContains key "email"

/-- The per-row record construction of `createCertificateRecords`
(`none` when the row is skipped by a `continue`). -/
def createCertRecordFromRow (projectId batchId : String) (row : Row) :
    Option NewCertRecord :=
  match findCertIdKey row, findFilenameKey row with
  | some ck, some fk =>
    let certificateId := trimStr (rowGet row ck)
    let filename := trimStr (rowGet row fk)
    if certificateId = "" ∨ filename = "" then none
    else
      some { projectId := projectId
             batchId := batchId
             certificateId := certificateId
             filename := filename
             recipientName := (findNameKey row).map fun k => trimStr (rowGet row k)
             recipientEmail := (findEmailKey row).map fun k => trimStr (rowGet row k)
             status := .pending }
  | _, _ => none

/-- `BatchService.createCertificateRecords` over all data rows. -/
def createCertificateRecords (projectId batchId : String) (rows : List Row) :
    List NewCertRecord :=
  rows.filterMap (createCertRecordFromRow projectId batchId)

/-- Store with one failed certificate, for the C6 witness. -/
def c6Cert : CertRecord :=
  { certificateId := "CID1", batchId := "b1", projectId := "p1",
    filename := "a.pdf", status := .failed, errorMessage := some "boom",
    processingStartedAt := some 1, processingCompletedAt := some 2, updatedAt := 2 }

/-- Issued certificate for the C9 witness. -/
def c9Cert : CertRecord :=
  { certificateId := "CID1", batchId := "b1", projectId := "p1",
    filename := "a.pdf", status := .issued,
    issuedPdfPath := some "up/a.pdf", qrCodeData := some "qr",
    verificationUrl := some "https://verify.example.com?id=CID1", updatedAt := 5 }

/-- Failed certificate for the C7 witness. -/
def c7F : CertRecord :=
  { certificateId := "CIDF", batchId := "b1", projectId := "p1",
    filename := "f.pdf", status := .failed, errorMessage := some "eee",
    processingStartedAt := some 1, processingCompletedAt := some 2, updatedAt := 2 }

/-- Issued certificate for the C7 witness. -/
def c7I : CertRecord :=
  { certificateId := "CIDI", batchId := "b1", projectId := "p1",
    filename := "i.pdf", status := .issued, updatedAt := 3 }

/-- The store `bulkRetryCertificates` produces on the C7 witness input:
the failed certificate re-processed to `issued`, the issued one
untouched. -/
def c7Result : CertStore :=
  [("c1",
    { certificateId := "CIDF", batchId := "b1", projectId := "p1",
      filename := "f.pdf", status := .issued,
      processingStartedAt := some 11, processingCompletedAt := some 12,
      issuedPdfPath := some "p.pdf",
      qrCodeData := some "data:image/png;base64,<https://verify.example.com?id=CIDF>",
      verificationUrl := some "https://verify.example.com?id=CIDF",
      updatedAt := 12 }),
   ("c2", c7I)]

lemma breakdownGo_count_le (B : Nat) :
    ∀ fuel r bn, ∀ e ∈ breakdownGo B fuel r bn, e.certificateCount ≤ B := by
  intro fuel
  induction fuel with
  | zero => intro r bn e he; simp [breakdownGo] at he
  | succ n ih =>
    intro r bn e he
    by_cases hr : r = 0
    · simp [breakdownGo, hr] at he
    · simp only [breakdownGo, if_neg hr, List.mem_cons] at he
      rcases he with he | he
      · subst he; exact min_le_right _ _
      · exact ih _ _ e he

lemma breakdownGo_time (B : Nat) :
    ∀ fuel r bn, ∀ e ∈ breakdownGo B fuel r bn,
      e.estimatedTime = (e.certificateCount + 9) / 10 := by
  intro fuel
  induction fuel with
  | zero => intro r bn e he; simp [breakdownGo] at he
  | succ n ih =>
    intro r bn e he
    by_cases hr : r = 0
    · simp [breakdownGo, hr] at he
    · simp only [breakdownGo, if_neg hr, List.mem_cons] at he
      rcases he with he | he
      · subst he; rfl
      · exact ih _ _ e he

lemma breakdownGo_sum (B : Nat) (hB : 0 < B) :
    ∀ fuel r bn, r ≤ fuel →
      ((breakdownGo B fuel r bn).map BatchBreakdown.certificateCount).sum = r := by
  intro fuel
  induction fuel with
  | zero => intro r bn hr; interval_cases r; simp [breakdownGo]
  | succ n ih =>
    intro r bn hr
    by_cases h0 : r = 0
    · simp [breakdownGo, h0]
    · have hr1 : 1 ≤ r := Nat.one_le_iff_ne_zero.mpr h0
      have hmin : 1 ≤ min r B := le_min hr1 hB
      have hrec : r - min r B ≤ n := by
        have : r - min r B ≤ r - 1 := Nat.sub_le_sub_left hmin r
        omega
      simp only [breakdownGo, if_neg h0, List.map_cons, List.sum_cons]
      rw [ih _ _ hrec]
      have : min r B ≤ r := min_le_left _ _
      omega

lemma breakdownGo_length (B : Nat) (hB : 0 < B) :
    ∀ fuel r bn, r ≤ fuel →
      (breakdownGo B fuel r bn).length = (r + B - 1) / B := by
  intro fuel
  induction fuel with
  | zero =>
    intro r bn hr; interval_cases r
    simp [breakdownGo, Nat.div_eq_of_lt (by omega : B - 1 < B)]
  | succ n ih =>
    intro r bn hr
    by_cases h0 : r = 0
    · subst h0
      have h' : (B - 1) / B = 0 := Nat.div_eq_of_lt (by omega)
      simp [breakdownGo, h']
    · have hr1 : 1 ≤ r := Nat.one_le_iff_ne_zero.mpr h0
      have hmin : 1 ≤ min r B := le_min hr1 hB
      have hrec : r - min r B ≤ n := by
        have : r - min r B ≤ r - 1 := Nat.sub_le_sub_left hmin r
        omega
      simp only [breakdownGo, if_neg h0, List.length_cons]
      rw [ih _ _ hrec]
      rcases le_or_lt r B with hle | hlt
      · have hminr : min r B = r := min_eq_left hle
        rw [hminr]
        have h1 : (r - r + B - 1) / B = 0 :=
          Nat.div_eq_of_lt (by omega)
        have h2 : (r + B - 1) / B = 1 := by
          have := Nat.div_eq_of_lt_le
            (by omega : 1 * B ≤ r + B - 1)
            (by omega : r + B - 1 < (1 + 1) * B)
          simpa using this
        omega
      · have hminB : min r B = B := min_eq_right hlt.le
        rw [hminB]
        have h1 : r - B + B - 1 = r - 1 := by omega
        have h2 : r + B - 1 = (r - 1) + B := by omega
        rw [h1, h2, Nat.add_div_right _ hB]

lemma finishValidation_isValid_iff (st : ScanState) (pdfs : List String) :
    (finishValidation st pdfs).isValid = true ↔
      ((finishValidation st pdfs).errors = [] ∧
       (finishValidation st pdfs).missingPdfs = []) := by
  simp only [finishValidation, Bool.and_eq_true, List.isEmpty_iff]

lemma finishValidation_extra_invalid (st : ScanState) (pdfs : List String)
    (h : (finishValidation st pdfs).extraPdfs ≠ []) :
    (finishValidation st pdfs).isValid = false := by
  simp only [finishValidation] at h ⊢
  rw [if_neg (by simpa [List.isEmpty_iff] using h)]
  simp

lemma finishValidation_extra_not_missing (st : ScanState) (pdfs : List String) :
    ∀ p ∈ (finishValidation st pdfs).extraPdfs,
      p ∉ (finishValidation st pdfs).missingPdfs := by
  intro p hp hm
  simp only [finishValidation, List.mem_filter, decide_eq_true_eq] at hp hm
  exact hp.2 hm.1

lemma validate_isValid_iff (excel : ExcelInput) (pdfs : List String) :
    (validateBatchFiles excel pdfs).isValid = true ↔
      ((validateBatchFiles excel pdfs).errors = [] ∧
       (validateBatchFiles excel pdfs).missingPdfs = []) := by
  match excel with
  | .readError msg => simp [validateBatchFiles, createFailedValidation]
  | .workbook [] => simp [validateBatchFiles, createFailedValidation]
  | .workbook ([] :: _) => simp [validateBatchFiles, createFailedValidation]
  | .workbook ((r :: rest) :: _) =>
    by_cases h : (missingRequiredColumns r).isEmpty
    · simpa [validateBatchFiles, h, scanRows] using
        finishValidation_isValid_iff (scanRowsAux ⟨[], [], [], []⟩ 0 (r :: rest)) pdfs
    · simp [validateBatchFiles, h, createFailedValidation]

lemma validate_extra_invalid (excel : ExcelInput) (pdfs : List String)
    (h : (validateBatchFiles excel pdfs).extraPdfs ≠ []) :
    (validateBatchFiles excel pdfs).isValid = false := by
  match excel with
  | .readError msg => rfl
  | .workbook [] => rfl
  | .workbook ([] :: _) => rfl
  | .workbook ((r :: rest) :: _) =>
    by_cases hm : (missingRequiredColumns r).isEmpty
    · simp only [validateBatchFiles, if_pos hm, scanRows] at h ⊢
      exact finishValidation_extra_invalid _ _ h
    · simp [validateBatchFiles, hm, createFailedValidation]

lemma validate_extra_not_missing (excel : ExcelInput) (pdfs : List String) :
    ∀ p ∈ (validateBatchFiles excel pdfs).extraPdfs,
      p ∉ (validateBatchFiles excel pdfs).missingPdfs := by
  match excel with
  | .readError msg => intro p hp; simp [validateBatchFiles, createFailedValidation] at hp
  | .workbook [] => intro p hp; simp [validateBatchFiles, createFailedValidation] at hp
  | .workbook ([] :: _) => intro p hp; simp [validateBatchFiles, createFailedValidation] at hp
  | .workbook ((r :: rest) :: _) =>
    by_cases hm : (missingRequiredColumns r).isEmpty
    · simp only [validateBatchFiles, if_pos hm, scanRows]
      exact finishValidation_extra_not_missing _ _
    · intro p hp; simp [validateBatchFiles, hm, createFailedValidation] at hp

/-- C1 counterexample: a manifest with the single accepted row
(`C1`, `a.pdf`) and ZIP PDFs `a.pdf`, `b.pdf`. The unmatched ZIP PDF
`b.pdf` lands in `extraPdfs`, `missingPdfs` is empty, yet an
`Extra PDF files` error is pushed, so `isValid` is `false`: an extra
PDF by itself does make the result invalid. -/
theorem validate_extraPdf_cex :
    validateBatchFiles
        (.workbook [[[("certificateId", "C1"), ("filename", "a.pdf")]]])
        ["a.pdf", "b.pdf"] =
      { isValid := false
        totalEntries := 1
        validRecords := 1
        invalidRecords := 0
        estimatedProcessingTime := 1
        errors := ["Extra PDF files not in Excel: b.pdf"]
        missingPdfs := []
        extraPdfs := ["b.pdf"]
        batchBreakdown := [⟨1, 1, 1⟩] } := by decide

/-- C1 amended: `isValid` is `true` iff `errors` and `missingPdfs` are
both empty, and an unmatched ZIP PDF is recorded in `extraPdfs` (never
in `missingPdfs`) — but a nonempty `extraPdfs` pushes an error string,
so it does force `isValid = false`. -/
theorem validate_isValid_iff_and_extras (excel : ExcelInput) (pdfs : List String) :
    ((validateBatchFiles excel pdfs).isValid = true ↔
      ((validateBatchFiles excel pdfs).errors = [] ∧
       (validateBatchFiles excel pdfs).missingPdfs = [])) ∧
    ((validateBatchFiles excel pdfs).extraPdfs ≠ [] →
      (validateBatchFiles excel pdfs).isValid = false) ∧
    (∀ p ∈ (validateBatchFiles excel pdfs).extraPdfs,
      p ∉ (validateBatchFiles excel pdfs).missingPdfs) :=
  ⟨validate_isValid_iff excel pdfs,
   validate_extra_invalid excel pdfs,
   validate_extra_not_missing excel pdfs⟩

/-- Witness for C1 amended at the counterexample input. -/
theorem validate_isValid_iff_and_extras_witness :
    (validateBatchFiles
        (.workbook [[[("certificateId", "C1"), ("filename", "a.pdf")]]])
        ["a.pdf", "b.pdf"]).isValid = false ∧
    "b.pdf" ∉ (validateBatchFiles
        (.workbook [[[("certificateId", "C1"), ("filename", "a.pdf")]]])
        ["a.pdf", "b.pdf"]).missingPdfs :=
  ⟨(validate_isValid_iff_and_extras
      (.workbook [[[("certificateId", "C1"), ("filename", "a.pdf")]]])
      ["a.pdf", "b.pdf"]).2.1 (by decide),
   (validate_isValid_iff_and_extras
      (.workbook [[[("certificateId", "C1"), ("filename", "a.pdf")]]])
      ["a.pdf", "b.pdf"]).2.2 "b.pdf" (by decide)⟩

/-- C3: for every `validRecords` count and positive configured batch
size `B`, `calculateBatchBreakdown` returns chunks whose counts are each
at most `B`, sum to exactly `validRecords`, and number exactly
`ceil (validRecords / B)`; each chunk's `estimatedTime` is
`ceil (certificateCount * 0.1)`, i.e. `(certificateCount + 9) / 10`. -/
theorem batchBreakdown_partition (B n : Nat) (hB : 0 < B) :
    (∀ e ∈ calculateBatchBreakdown B n, e.certificateCount ≤ B) ∧
    ((calculateBatchBreakdown B n).map BatchBreakdown.certificateCount).sum = n ∧
    (calculateBatchBreakdown B n).length = (n + B - 1) / B ∧
    (∀ e ∈ calculateBatchBreakdown B n,
      e.estimatedTime = (e.certificateCount + 9) / 10) :=
  ⟨fun e he => breakdownGo_count_le B n n 1 e he,
   breakdownGo_sum B hB n n 1 le_rfl,
   breakdownGo_length B hB n n 1 le_rfl,
   fun e he => breakdownGo_time B n n 1 e he⟩

/-- Witness for C3 at the default batch size 50 and 123 valid records. -/
theorem batchBreakdown_partition_witness :
    (0 < 50 ∧
      ((∀ e ∈ calculateBatchBreakdown 50 123, e.certificateCount ≤ 50) ∧
       ((calculateBatchBreakdown 50 123).map BatchBreakdown.certificateCount).sum = 123 ∧
       (calculateBatchBreakdown 50 123).length = (123 + 50 - 1) / 50 ∧
       (∀ e ∈ calculateBatchBreakdown 50 123,
         e.estimatedTime = (e.certificateCount + 9) / 10))) ∧
    calculateBatchBreakdown 50 123 =
      [⟨1, 50, 5⟩, ⟨2, 50, 5⟩, ⟨3, 23, 3⟩] :=
  ⟨⟨by decide, batchBreakdown_partition 50 123 (by decide)⟩, by decide⟩

lemma findById_update_self (store : CertStore) (id : String)
    (f : CertRecord → CertRecord) :
    findById (findByIdAndUpdate store id f) id = (findById store id).map f := by
  induction store with
  | nil => rfl
  | cons p ps ih =>
    by_cases h : p.1 = id
    · simp [findById, findByIdAndUpdate, h]
    · have hb : (p.1 == id) = false := beq_false_of_ne h
      simp [findById, findByIdAndUpdate, hb, ih]

lemma findById_update_other (store : CertStore) (id id' : String)
    (f : CertRecord → CertRecord) (h : id' ≠ id) :
    findById (findByIdAndUpdate store id f) id' = findById store id' := by
  induction store with
  | nil => rfl
  | cons p ps ih =>
    by_cases hk : p.1 = id
    · have hb : (p.1 == id') = false := beq_false_of_ne fun hh => h (hh ▸ hk)
      simp [findById, findByIdAndUpdate, hk, hb, ih, Ne.symm h]
    · have hb : (p.1 == id) = false := beq_false_of_ne hk
      by_cases hk' : p.1 = id'
      · simp [findById, findByIdAndUpdate, hb, hk', h]
      · have hb' : (p.1 == id') = false := beq_false_of_ne hk'
        simp [findById, findByIdAndUpdate, hb, hb', ih]

lemma update_keys (store : CertStore) (id : String) (f : CertRecord → CertRecord) :
    (findByIdAndUpdate store id f).map Prod.fst = store.map Prod.fst := by
  induction store with
  | nil => rfl
  | cons p ps ih =>
    by_cases h : p.1 = id
    · simp [findByIdAndUpdate, h, ih]
    · have hb : (p.1 == id) = false := beq_false_of_ne h
      simp [findByIdAndUpdate, hb, ih]

lemma findById_eq_none_iff (store : CertStore) (id : String) :
    findById store id = none ↔ id ∉ store.map Prod.fst := by
  induction store with
  | nil => simp [findById]
  | cons p ps ih =>
    by_cases h : p.1 = id
    · simp [findById, h]
    · have hb : (p.1 == id) = false := beq_false_of_ne h
      simp [findById, hb, ih, Ne.symm h]

lemma findById_isSome_of_mem (store : CertStore) (id : String)
    (h : id ∈ store.map Prod.fst) : ∃ c, findById store id = some c := by
  cases hf : findById store id with
  | none => exact absurd h ((findById_eq_none_iff store id).mp hf)
  | some c => exact ⟨c, rfl⟩

lemma processCertificate_keys (s : CertStore) (cert : CertRecord) (id : String)
    (stamp : Except String String) (t1 t2 : Nat) :
    (processCertificate s cert id stamp t1 t2).map Prod.fst = s.map Prod.fst := by
  cases stamp <;> simp [processCertificate, update_keys]

lemma processCertificate_frame (s : CertStore) (cert : CertRecord) (id id' : String)
    (stamp : Except String String) (t1 t2 : Nat) (h : id' ≠ id) :
    findById (processCertificate s cert id stamp t1 t2) id' = findById s id' := by
  cases stamp <;>
    simp [processCertificate, findById_update_other _ _ _ _ h]

lemma processCertificate_terminal (s : CertStore) (cert c : CertRecord) (id : String)
    (stamp : Except String String) (t1 t2 : Nat) (h : findById s id = some c) :
    ∃ c', findById (processCertificate s cert id stamp t1 t2) id = some c' ∧
      (c'.status = CertStatus.issued ∨ c'.status = CertStatus.failed) := by
  cases stamp with
  | ok path =>
    simp only [processCertificate]
    rw [findById_update_self, findById_update_self, h]
    exact ⟨_, rfl, Or.inl rfl⟩
  | error msg =>
    simp only [processCertificate]
    rw [findById_update_self, findById_update_self, h]
    exact ⟨_, rfl, Or.inr rfl⟩

/-- C2: at most one orchestration run per batch id — a second
`startBatchProcessing` call while the id is locked throws
`Batch is already being processed` and changes nothing; and on every
exit (completion, caught batch failure, escaping exception) the lock
entry is removed, leaving the lock set exactly as before the call. -/
theorem startBatchProcessing_exclusive (w : World) (b : String)
    (stamp : String → Except String String) (outcome : RunOutcome) (t : Nat) :
    (b ∈ w.locks →
      startBatchProcessing w b stamp outcome t =
        (some "Batch is already being processed", w)) ∧
    (b ∉ w.locks →
      ((startBatchProcessing w b stamp outcome t).2.locks = w.locks ∧
       b ∉ (startBatchProcessing w b stamp outcome t).2.locks)) := by
  constructor
  · intro h
    simp [startBatchProcessing, h]
  · intro h
    cases outcome <;>
      simp [startBatchProcessing, h, List.erase_cons_head]

/-- Witness for C2: a locked id is rejected; an unlocked id runs and
releases the lock. -/
theorem startBatchProcessing_exclusive_witness :
    startBatchProcessing ⟨["b1"], [], [], []⟩ "b1" (fun _ => .ok "p")
        RunOutcome.success 0 =
      (some "Batch is already being processed", ⟨["b1"], [], [], []⟩) ∧
    ((startBatchProcessing ⟨["b1"], [], [], []⟩ "b2" (fun _ => .ok "p")
        RunOutcome.success 0).2.locks = ["b1"] ∧
      "b2" ∉ (startBatchProcessing ⟨["b1"], [], [], []⟩ "b2" (fun _ => .ok "p")
        RunOutcome.success 0).2.locks) :=
  ⟨(startBatchProcessing_exclusive ⟨["b1"], [], [], []⟩ "b1" (fun _ => .ok "p")
      RunOutcome.success 0).1 (by decide),
   (startBatchProcessing_exclusive ⟨["b1"], [], [], []⟩ "b2" (fun _ => .ok "p")
      RunOutcome.success 0).2 (by decide)⟩

/-- C8: starting issuance on a batch that is already `processing` or
`completed`, or whose stored ValidationResult is missing or not valid,
is rejected by the route with a descriptive error, and the state — in
particular every certificate record — is left untouched. -/
theorem startIssuance_rejected_unchanged (w : World) (pid bid : String)
    (stamp : String → Except String String) (outcome : RunOutcome) (t : Nat)
    (b : BatchRec) (hb : findBatch w.batches bid = some b)
    (hrej : b.status = BatchStatus.processing ∨ b.status = BatchStatus.completed ∨
      validIsTrue b.validationResults = false) :
    (startIssuanceRoute w pid bid stamp outcome t).1.success = false ∧
    (∃ e, (startIssuanceRoute w pid bid stamp outcome t).1.error = some e) ∧
    (startIssuanceRoute w pid bid stamp outcome t).2 = w ∧
    (startIssuanceRoute w pid bid stamp outcome t).2.certificates = w.certificates := by
  have hmain : (startIssuanceRoute w pid bid stamp outcome t).1.success = false ∧
      (∃ e, (startIssuanceRoute w pid bid stamp outcome t).1.error = some e) ∧
      (startIssuanceRoute w pid bid stamp outcome t).2 = w := by
    unfold startIssuanceRoute
    by_cases hp : pid ∉ w.projects
    · simp [hp]
    · by_cases hpp : b.projectId ≠ pid
      · simp [hp, hb, hpp]
      · rcases hrej with h1 | h1 | h1
        · simp [hp, hb, hpp, h1]
        · by_cases h2 : b.status = BatchStatus.processing
          · simp [hp, hb, hpp, h2]
          · simp [hp, hb, hpp, h1, h2]
        · by_cases h2 : b.status = BatchStatus.processing
          · simp [hp, hb, hpp, h2]
          · by_cases h3 : b.status = BatchStatus.completed
            · simp [hp, hb, hpp, h2, h3]
            · simp [hp, hb, hpp, h1, h2, h3]
  exact ⟨hmain.1, hmain.2.1, hmain.2.2, by rw [hmain.2.2]⟩

/-- Witness for C8: a completed batch, and a batch with a failed
ValidationResult, are both rejected without touching the store. -/
theorem startIssuance_rejected_unchanged_witness :
    ((startIssuanceRoute
        ⟨[], ["p"], [("b1", ⟨"p", BatchStatus.completed, none, 0, 0⟩)], []⟩
        "p" "b1" (fun _ => .ok "x") RunOutcome.success 0).1.success = false ∧
      (∃ e, (startIssuanceRoute
        ⟨[], ["p"], [("b1", ⟨"p", BatchStatus.completed, none, 0, 0⟩)], []⟩
        "p" "b1" (fun _ => .ok "x") RunOutcome.success 0).1.error = some e) ∧
      (startIssuanceRoute
        ⟨[], ["p"], [("b1", ⟨"p", BatchStatus.completed, none, 0, 0⟩)], []⟩
        "p" "b1" (fun _ => .ok "x") RunOutcome.success 0).2 =
        ⟨[], ["p"], [("b1", ⟨"p", BatchStatus.completed, none, 0, 0⟩)], []⟩ ∧
      (startIssuanceRoute
        ⟨[], ["p"], [("b1", ⟨"p", BatchStatus.completed, none, 0, 0⟩)], []⟩
        "p" "b1" (fun _ => .ok "x") RunOutcome.success 0).2.certificates = []) :=
  startIssuance_rejected_unchanged
    ⟨[], ["p"], [("b1", ⟨"p", BatchStatus.completed, none, 0, 0⟩)], []⟩
    "p" "b1" (fun _ => .ok "x") RunOutcome.success 0
    ⟨"p", BatchStatus.completed, none, 0, 0⟩ (by decide)
    (Or.inr (Or.inl rfl))

/-- C6: `retryCertificate` and `reissueCertificate` both reset the
certificate — status `pending`, `errorMessage`, `processingStartedAt`
and `processingCompletedAt` cleared — in the stored record, then run
the single-certificate re-processing on it, after which its status is
`issued` or `failed`, never `pending`. -/
theorem retry_reissue_reset_terminal (store : CertStore) (id : String)
    (cert : CertRecord) (stamp : Except String String) (t0 t1 t2 : Nat)
    (h : findById store id = some cert) :
    ((resetForReprocessing t0 cert).status = CertStatus.pending ∧
     (resetForReprocessing t0 cert).errorMessage = none ∧
     (resetForReprocessing t0 cert).processingStartedAt = none ∧
     (resetForReprocessing t0 cert).processingCompletedAt = none) ∧
    findById (findByIdAndUpdate store id (resetForReprocessing t0)) id =
      some (resetForReprocessing t0 cert) ∧
    retryCertificate store id stamp t0 t1 t2 =
      .ok (processCertificate (findByIdAndUpdate store id (resetForReprocessing t0))
        cert id stamp t1 t2) ∧
    reissueCertificate store id stamp t0 t1 t2 =
      .ok (processCertificate (findByIdAndUpdate store id (resetForReprocessing t0))
        cert id stamp t1 t2) ∧
    (∃ c', findById (processCertificate
        (findByIdAndUpdate store id (resetForReprocessing t0)) cert id stamp t1 t2) id =
          some c' ∧
      (c'.status = CertStatus.issued ∨ c'.status = CertStatus.failed)) := by
  refine ⟨⟨rfl, rfl, rfl, rfl⟩, ?_, ?_, ?_, ?_⟩
  · rw [findById_update_self, h]; rfl
  · simp [retryCertificate, h]
  · simp [reissueCertificate, h]
  · exact processCertificate_terminal _ cert (resetForReprocessing t0 cert) id stamp t1 t2
      (by rw [findById_update_self, h]; rfl)

/-- Witness for C6 at a one-certificate store and a successful stamp. -/
theorem retry_reissue_reset_terminal_witness :
    ((resetForReprocessing 10 c6Cert).status = CertStatus.pending ∧
     (resetForReprocessing 10 c6Cert).errorMessage = none ∧
     (resetForReprocessing 10 c6Cert).processingStartedAt = none ∧
     (resetForReprocessing 10 c6Cert).processingCompletedAt = none) ∧
    findById (findByIdAndUpdate [("c1", c6Cert)] "c1" (resetForReprocessing 10)) "c1" =
      some (resetForReprocessing 10 c6Cert) ∧
    retryCertificate [("c1", c6Cert)] "c1" (.ok "p.pdf") 10 11 12 =
      .ok (processCertificate
        (findByIdAndUpdate [("c1", c6Cert)] "c1" (resetForReprocessing 10))
        c6Cert "c1" (.ok "p.pdf") 11 12) ∧
    reissueCertificate [("c1", c6Cert)] "c1" (.ok "p.pdf") 10 11 12 =
      .ok (processCertificate
        (findByIdAndUpdate [("c1", c6Cert)] "c1" (resetForReprocessing 10))
        c6Cert "c1" (.ok "p.pdf") 11 12) ∧
    (∃ c', findById (processCertificate
        (findByIdAndUpdate [("c1", c6Cert)] "c1" (resetForReprocessing 10))
        c6Cert "c1" (.ok "p.pdf") 11 12) "c1" = some c' ∧
      (c'.status = CertStatus.issued ∨ c'.status = CertStatus.failed)) :=
  retry_reissue_reset_terminal [("c1", c6Cert)] "c1" c6Cert (.ok "p.pdf") 10 11 12 rfl

/-- C9: `republishCertificate` throws (and changes neither the record
store nor any file) for a missing certificate or any status other than
`issued`; from `issued` it succeeds, rewriting only `verificationUrl`
(to a URL carrying the current timestamp) and `updatedAt`, leaving
status, `issuedPdfPath`, `qrCodeData`, every other record, and the blob
store (the stamped PDFs) unchanged. -/
theorem republish_only_issued_frame (store : CertStore) (blobs : BlobStore)
    (id : String) (now : Nat) :
    (findById store id = none →
      republishCertificate store blobs id now =
        (some "Certificate not found", store, blobs)) ∧
    (∀ c, findById store id = some c → c.status ≠ CertStatus.issued →
      republishCertificate store blobs id now =
        (some "Can only republish issued certificates", store, blobs)) ∧
    (∀ c, findById store id = some c → c.status = CertStatus.issued →
      (republishCertificate store blobs id now).1 = none ∧
      (republishCertificate store blobs id now).2.2 = blobs ∧
      findById (republishCertificate store blobs id now).2.1 id =
        some { c with updatedAt := now
                      verificationUrl := some (verificationUrlFor c.certificateId ++
                        "&t=" ++ toString now) } ∧
      (∀ id', id' ≠ id →
        findById (republishCertificate store blobs id now).2.1 id' =
          findById store id')) := by
  refine ⟨?_, ?_, ?_⟩
  · intro h; simp [republishCertificate, h]
  · intro c hc hs; simp [republishCertificate, hc, hs]
  · intro c hc hs
    refine ⟨?_, ?_, ?_, ?_⟩
    · simp [republishCertificate, hc, hs]
    · simp [republishCertificate, hc, hs]
    · simp [republishCertificate, hc, hs, findById_update_self]
    · intro id' hid
      simp [republishCertificate, hc, hs, findById_update_other _ _ _ _ hid]

/-- Witness for C9: republishing an issued certificate rewrites only
its verification URL and timestamp. -/
theorem republish_only_issued_frame_witness :
    (republishCertificate [("c1", c9Cert)] [("up/a.pdf", 7)] "c1" 99).1 = none ∧
    (republishCertificate [("c1", c9Cert)] [("up/a.pdf", 7)] "c1" 99).2.2 =
      [("up/a.pdf", 7)] ∧
    findById (republishCertificate [("c1", c9Cert)] [("up/a.pdf", 7)] "c1" 99).2.1 "c1" =
      some { c9Cert with updatedAt := 99
                         verificationUrl := some (verificationUrlFor c9Cert.certificateId ++
                           "&t=" ++ toString 99) } ∧
    findById (republishCertificate [("c1", c9Cert)] [("up/a.pdf", 7)] "c1" 99).2.1 "c2" =
      findById [("c1", c9Cert)] "c2" :=
  have h := (republish_only_issued_frame [("c1", c9Cert)] [("up/a.pdf", 7)] "c1" 99).2.2
    c9Cert rfl rfl
  ⟨h.1, h.2.1, h.2.2.1, h.2.2.2 "c2" (by decide)⟩

lemma reissue_eq_retry : reissueCertificate = retryCertificate := rfl

lemma retryCertificate_ok_iff (s : CertStore) (id : String)
    (stamp : Except String String) (t0 t1 t2 : Nat) (s' : CertStore) :
    retryCertificate s id stamp t0 t1 t2 = .ok s' ↔
      ∃ cert, findById s id = some cert ∧
        s' = processCertificate (findByIdAndUpdate s id (resetForReprocessing t0))
          cert id stamp t1 t2 := by
  unfold retryCertificate
  cases hf : findById s id with
  | none => simp
  | some cert => simp [eq_comm]

lemma retryCertificate_keys (s s' : CertStore) (id : String)
    (stamp : Except String String) (t0 t1 t2 : Nat)
    (h : retryCertificate s id stamp t0 t1 t2 = .ok s') :
    s'.map Prod.fst = s.map Prod.fst := by
  obtain ⟨cert, -, rfl⟩ := (retryCertificate_ok_iff s id stamp t0 t1 t2 s').mp h
  rw [processCertificate_keys, update_keys]

lemma retryCertificate_frame (s s' : CertStore) (id id' : String)
    (stamp : Except String String) (t0 t1 t2 : Nat)
    (h : retryCertificate s id stamp t0 t1 t2 = .ok s') (hid : id' ≠ id) :
    findById s' id' = findById s id' := by
  obtain ⟨cert, -, rfl⟩ := (retryCertificate_ok_iff s id stamp t0 t1 t2 s').mp h
  rw [processCertificate_frame _ _ _ _ _ _ _ hid, findById_update_other _ _ _ _ hid]

lemma retryCertificate_ok_of_mem (s : CertStore) (id : String)
    (stamp : Except String String) (t0 t1 t2 : Nat)
    (h : id ∈ s.map Prod.fst) :
    ∃ s', retryCertificate s id stamp t0 t1 t2 = .ok s' := by
  obtain ⟨c, hc⟩ := findById_isSome_of_mem s id h
  exact ⟨_, (retryCertificate_ok_iff s id stamp t0 t1 t2 _).mpr ⟨c, hc, rfl⟩⟩

lemma retry_fold_ok (stamp : String → Except String String) (t0 t1 t2 : Nat)
    (l : List (String × CertRecord)) :
    ∀ s : CertStore, (∀ p ∈ l, p.1 ∈ s.map Prod.fst) →
      ∃ s', l.foldlM (fun s p => retryCertificate s p.1 (stamp p.1) t0 t1 t2) s = .ok s' ∧
        s'.map Prod.fst = s.map Prod.fst ∧
        (∀ id', id' ∉ l.map Prod.fst → findById s' id' = findById s id') := by
  induction l with
  | nil => intro s _; exact ⟨s, rfl, rfl, fun _ _ => rfl⟩
  | cons p l ih =>
    intro s h
    obtain ⟨s1, hs1⟩ := retryCertificate_ok_of_mem s p.1 (stamp p.1) t0 t1 t2
      (h p (List.mem_cons_self p l))
    have hkeys := retryCertificate_keys s s1 p.1 (stamp p.1) t0 t1 t2 hs1
    obtain ⟨s', hfold, hk', hframe⟩ := ih s1 fun q hq => by
      rw [hkeys]; exact h q (List.mem_cons_of_mem p hq)
    refine ⟨s', ?_, by rw [hk', hkeys], ?_⟩
    · rw [List.foldlM_cons, hs1]
      exact hfold
    · intro id' hid'
      have h1 : id' ≠ p.1 := fun hh => hid' (by simp [hh])
      have h2 : id' ∉ l.map Prod.fst := fun hh => hid' (by simp [hh])
      rw [hframe id' h2]
      exact retryCertificate_frame s s1 p.1 id' (stamp p.1) t0 t1 t2 hs1 h1

/-- C7: `bulkRetryCertificates` rejects with an error exactly when no
listed certificate currently has status `failed`; when it runs, every
certificate that is not a listed `failed` one is left untouched.
`bulkReissueCertificates` by contrast selects listed certificates of
any status, rejecting only when no listed certificate exists at all. -/
theorem bulkRetry_failed_only (store : CertStore) (ids : List String)
    (stamp : String → Except String String) (t0 t1 t2 : Nat) :
    (bulkRetryCertificates store ids stamp t0 t1 t2 =
        .error "No failed certificates found to retry" ↔
      ∀ p ∈ store, p.1 ∈ ids → p.2.status ≠ CertStatus.failed) ∧
    (∀ s', bulkRetryCertificates store ids stamp t0 t1 t2 = .ok s' →
      ∀ id', (∀ c, (id', c) ∈ store → ¬(id' ∈ ids ∧ c.status = CertStatus.failed)) →
        findById s' id' = findById store id') ∧
    (bulkReissueCertificates store ids stamp t0 t1 t2 =
        .error "No certificates found to reissue" ↔
      ∀ p ∈ store, p.1 ∉ ids) := by
  have hsub : ∀ p ∈ store.filter
      (fun p => ids.contains p.1 && decide (p.2.status = CertStatus.failed)),
      p.1 ∈ store.map Prod.fst :=
    fun p hp => List.mem_map_of_mem Prod.fst (List.mem_of_mem_filter hp)
  refine ⟨⟨?_, ?_⟩, ?_, ⟨?_, ?_⟩⟩
  · intro h
    by_cases hc : (store.filter
        (fun p => ids.contains p.1 && decide (p.2.status = CertStatus.failed))).isEmpty
    · rw [List.isEmpty_iff, List.filter_eq_nil_iff] at hc
      intro p hp hid hst
      exact hc p hp (by simp [hid, hst])
    · obtain ⟨s', hs', -, -⟩ := retry_fold_ok stamp t0 t1 t2 _ store hsub
      rw [bulkRetryCertificates, if_neg hc, hs'] at h
      cases h
  · intro h
    have hc : (store.filter
        (fun p => ids.contains p.1 && decide (p.2.status = CertStatus.failed))).isEmpty := by
      rw [List.isEmpty_iff, List.filter_eq_nil_iff]
      intro p hp
      simp only [Bool.and_eq_true, List.elem_iff, decide_eq_true_eq, not_and]
      exact fun hid => h p hp hid
    rw [bulkRetryCertificates, if_pos hc]
  · intro s' hok id' hid'
    by_cases hc : (store.filter
        (fun p => ids.contains p.1 && decide (p.2.status = CertStatus.failed))).isEmpty
    · rw [bulkRetryCertificates, if_pos hc] at hok
      cases hok
    · rw [bulkRetryCertificates, if_neg hc] at hok
      obtain ⟨s'', hs'', -, hframe⟩ := retry_fold_ok stamp t0 t1 t2 _ store hsub
      rw [hs''] at hok
      cases hok
      apply hframe
      intro hmem
      simp only [List.mem_map] at hmem
      obtain ⟨q, hq, hq1⟩ := hmem
      have hq' := List.mem_filter.mp hq
      rcases hq' with ⟨hqs, hqp⟩
      simp only [Bool.and_eq_true, List.elem_iff, decide_eq_true_eq] at hqp
      exact hid' q.2 (by rw [← hq1]; exact hqs) ⟨hq1 ▸ hqp.1, hqp.2⟩
  · intro h
    by_cases hc : (store.filter (fun p => ids.contains p.1)).isEmpty
    · rw [List.isEmpty_iff, List.filter_eq_nil_iff] at hc
      intro p hp hid
      exact hc p hp (by simp [hid])
    · have hsub' : ∀ p ∈ store.filter (fun p => ids.contains p.1),
          p.1 ∈ store.map Prod.fst :=
        fun p hp => List.mem_map_of_mem Prod.fst (List.mem_of_mem_filter hp)
      obtain ⟨s', hs', -, -⟩ := retry_fold_ok stamp t0 t1 t2 _ store hsub'
      rw [bulkReissueCertificates, if_neg hc, reissue_eq_retry, hs'] at h
      cases h
  · intro h
    have hc : (store.filter (fun p => ids.contains p.1)).isEmpty := by
      rw [List.isEmpty_iff, List.filter_eq_nil_iff]
      intro p hp
      simpa [List.elem_iff] using h p hp
    rw [bulkReissueCertificates, if_pos hc]

/-- Witness for C7: over a mixed failed/issued store, the issued
certificate is untouched by bulk retry; bulk retry with no failed
certificate among the ids errors; bulk reissue errors only when no
listed certificate exists. -/
theorem bulkRetry_failed_only_witness :
    findById c7Result "c2" = findById [("c1", c7F), ("c2", c7I)] "c2" ∧
    bulkRetryCertificates [("c2", c7I)] ["c2"] (fun _ => .ok "p.pdf") 10 11 12 =
      .error "No failed certificates found to retry" ∧
    bulkReissueCertificates [("c1", c7F), ("c2", c7I)] ["zz"]
        (fun _ => .ok "p.pdf") 10 11 12 =
      .error "No certificates found to reissue" :=
  ⟨(bulkRetry_failed_only [("c1", c7F), ("c2", c7I)] ["c1", "c2"]
      (fun _ => .ok "p.pdf") 10 11 12).2.1 c7Result rfl "c2" (by
        intro c hc
        simp only [List.mem_cons, List.not_mem_nil, or_false, Prod.mk.injEq] at hc
        rcases hc with ⟨h1, h2⟩ | ⟨h1, h2⟩
        · exact absurd h1 (by decide)
        · subst h2; rintro ⟨-, hst⟩; exact absurd hst (by decide)),
   (bulkRetry_failed_only [("c2", c7I)] ["c2"]
      (fun _ => .ok "p.pdf") 10 11 12).1.mpr (by decide),
   (bulkRetry_failed_only [("c1", c7F), ("c2", c7I)] ["zz"]
      (fun _ => .ok "p.pdf") 10 11 12).2.2.mpr (by decide)⟩

lemma isPrefixB_iff (p : List Char) : ∀ s, isPrefixB p s = true ↔ ∃ r, s = p ++ r := by
  induction p with
  | nil => intro s; simp [isPrefixB]
  | cons a as ih =>
    intro s
    cases s with
    | nil =>
      simp only [isPrefixB, List.cons_append]
      constructor
      · intro h; cases h
      · rintro ⟨r, h⟩; cases h
    | cons b bs =>
      simp only [isPrefixB, Bool.and_eq_true, beq_iff_eq, ih, List.cons_append,
        List.cons.injEq]
      constructor
      · rintro ⟨rfl, r, rfl⟩; exact ⟨r, rfl, rfl⟩
      · rintro ⟨r, rfl, rfl⟩; exact ⟨rfl, r, rfl⟩

lemma isInfixB_iff (p : List Char) : ∀ s, isInfixB p s = true ↔ ∃ l r, s = l ++ p ++ r := by
  intro s
  induction s with
  | nil =>
    simp only [isInfixB, List.isEmpty_iff]
    constructor
    · rintro rfl; exact ⟨[], [], rfl⟩
    · rintro ⟨l, r, h⟩
      rcases List.append_eq_nil.mp h.symm with ⟨h1, -⟩
      rcases List.append_eq_nil.mp h1 with ⟨-, h2⟩
      simp [h2]
  | cons b bs ih =>
    simp only [isInfixB, Bool.or_eq_true, isPrefixB_iff, ih]
    constructor
    · rintro (⟨r, hr⟩ | ⟨l, r, rfl⟩)
      · exact ⟨[], r, by simpa using hr⟩
      · exact ⟨b :: l, r, rfl⟩
    · rintro ⟨l, r, h⟩
      cases l with
      | nil => exact Or.inl ⟨r, by simpa using h⟩
      | cons x xs =>
        rw [List.cons_append, List.cons_append, List.cons.injEq] at h
        exact Or.inr ⟨xs, r, by simpa using h.2⟩

lemma isInfixB_trans {p q s : List Char} (h1 : isInfixB p q = true)
    (h2 : isInfixB q s = true) : isInfixB p s = true := by
  rw [isInfixB_iff] at h1 h2 ⊢
  obtain ⟨l1, r1, rfl⟩ := h1
  obtain ⟨l2, r2, rfl⟩ := h2
  exact ⟨l2 ++ l1, r1 ++ r2, by simp⟩

lemma hContains_name_of_filename (k : String)
    (h : hContains k "filename" = true ∨ hContains k "file_name" = true) :
    hContains k "name" = true := by
  unfold hContains at h ⊢
  rcases h with h | h
  · exact isInfixB_trans (by decide) h
  · exact isInfixB_trans (by decide) h

lemma find?_prefix_false {α : Type} (p : α → Bool) (l1 l2 : List α)
    (h : ∀ k ∈ l1, p k = false) : (l1 ++ l2).find? p = l2.find? p := by
  induction l1 with
  | nil => rfl
  | cons a as ih =>
    simp only [List.cons_append, List.find?_cons, h a (List.mem_cons_self a as)]
    exact ih fun k hk => h k (List.mem_cons_of_mem a hk)

/-- C10: in `createCertificateRecords`, the recipient-name column is
discovered as the first key whose header contains `name` or `recipient`
(case-insensitive). Since `filename` contains `name`, whenever the
filename column precedes every dedicated name column (no earlier header
matches the name rule), the discovered name key IS the filename key, so
the created record's `recipientName` equals its `filename` value. -/
theorem recipientName_takes_filename (pid bid : String) (row : Row)
    (l1 l2 : List String) (fk ck : String)
    (hkeys : rowKeys row = l1 ++ fk :: l2)
    (hl1 : ∀ k ∈ l1, (hContains k "name" || hContains k "recipient") = false)
    (hfk : hContains fk "filename" = true ∨ hContains fk "file_name" = true)
    (hck : findCertIdKey row = some ck)
    (hid : trimStr (rowGet row ck) ≠ "")
    (hfn : trimStr (rowGet row fk) ≠ "") :
    findNameKey row = some fk ∧
    findFilenameKey row = some fk ∧
    ∃ c, createCertRecordFromRow pid bid row = some c ∧
      c.recipientName = some c.filename ∧
      c.filename = trimStr (rowGet row fk) := by
  have hname_fk : (hContains fk "name" || hContains fk "recipient") = true := by
    rw [Bool.or_eq_true]
    exact Or.inl (hContains_name_of_filename fk hfk)
  have hfil_fk : (hContains fk "filename" || hContains fk "file_name") = true := by
    rw [Bool.or_eq_true]; exact hfk
  have hl1f : ∀ k ∈ l1, (hContains k "filename" || hContains k "file_name") = false := by
    intro k hk
    have hn0 := hl1 k hk
    have hnn : hContains k "name" = false := by
      cases hx : hContains k "name" with
      | false => rfl
      | true => rw [hx] at hn0; simp at hn0
    have hf1 : hContains k "filename" = false := by
      cases hfil : hContains k "filename" with
      | false => rfl
      | true =>
        exact absurd (hContains_name_of_filename k (Or.inl hfil)) (by simp [hnn])
    have hf2 : hContains k "file_name" = false := by
      cases hfil : hContains k "file_name" with
      | false => rfl
      | true =>
        exact absurd (hContains_name_of_filename k (Or.inr hfil)) (by simp [hnn])
    simp [hf1, hf2]
  have hnk : findNameKey row = some fk := by
    unfold findNameKey
    rw [hkeys, find?_prefix_false _ _ _ hl1]
    simp [List.find?_cons, hname_fk]
  have hfk' : findFilenameKey row = some fk := by
    unfold findFilenameKey
    rw [hkeys, find?_prefix_false _ _ _ hl1f]
    simp [List.find?_cons, hfil_fk]
  have hcond : ¬(trimStr (rowGet row ck) = "" ∨ trimStr (rowGet row fk) = "") := by
    rintro (h | h)
    · exact hid h
    · exact hfn h
  have hcreate : createCertRecordFromRow pid bid row = some
      { projectId := pid, batchId := bid
        certificateId := trimStr (rowGet row ck)
        filename := trimStr (rowGet row fk)
        recipientName := some (trimStr (rowGet row fk))
        recipientEmail := (findEmailKey row).map fun k => trimStr (rowGet row k)
        status := .pending } := by
    simp only [createCertRecordFromRow, hck, hfk', hnk, Option.map_some', if_neg hcond]
  exact ⟨hnk, hfk', _, hcreate, rfl, rfl⟩

/-- Witness for C10: headers `certificateId`, `filename`,
`recipientName` in that order — the created record's recipient name is
the filename value `a.pdf`, not `Alice`. -/
theorem recipientName_takes_filename_witness :
    findNameKey [("certificateId", "C1"), ("filename", "a.pdf"),
      ("recipientName", "Alice")] = some "filename" ∧
    findFilenameKey [("certificateId", "C1"), ("filename", "a.pdf"),
      ("recipientName", "Alice")] = some "filename" ∧
    ∃ c, createCertRecordFromRow "p1" "b1"
        [("certificateId", "C1"), ("filename", "a.pdf"), ("recipientName", "Alice")] =
          some c ∧
      c.recipientName = some c.filename ∧
      c.filename = trimStr (rowGet [("certificateId", "C1"), ("filename", "a.pdf"),
        ("recipientName", "Alice")] "filename") :=
  recipientName_takes_filename "p1" "b1"
    [("certificateId", "C1"), ("filename", "a.pdf"), ("recipientName", "Alice")]
    ["certificateId"] ["recipientName"] "filename" "certificateId"
    (by decide) (by decide) (Or.inl (by decide)) (by decide) (by decide) (by decide)

/-- C5 counterexample: a first row whose headers are exactly
`certificate_id` and `file_name`. These satisfy the claim's containment
rule (each contains `certificate_id` resp. `file_name`), yet the
first-row structure check — which only tests containment of
`certificateid` and `filename` — reports both required columns missing
and the validation fails. -/
theorem requiredColumns_underscore_cex :
    (validateBatchFiles
        (.workbook [[[("certificate_id", "C1"), ("file_name", "a.pdf")]]])
        ["a.pdf"]).errors =
      ["Excel file missing required columns: certificateId, filename"] ∧
    (validateBatchFiles
        (.workbook [[[("certificate_id", "C1"), ("file_name", "a.pdf")]]])
        ["a.pdf"]).isValid = false ∧
    hContains "certificate_id" "certificate_id" = true ∧
    hContains "file_name" "file_name" = true := by decide

/-- C5 amended: the immediate missing-required-columns failure is
governed only by containment of `certificateid` and `filename` in the
first row's headers (case-insensitive); the underscore variants
`certificate_id` / `file_name` count only in per-row extraction, not
here. Validation fails immediately with the descriptive error exactly
when this stricter first-row rule fails, and otherwise proceeds to the
row scan. -/
theorem missingRequiredColumns_rule (r : Row) (rest : List Row)
    (sheets2 : List (List Row)) (pdfs : List String) :
    (missingRequiredColumns r = [] ↔
      ((∃ k ∈ rowKeys r, hContains k "certificateId" = true) ∧
       (∃ k ∈ rowKeys r, hContains k "filename" = true))) ∧
    (missingRequiredColumns r ≠ [] →
      validateBatchFiles (.workbook ((r :: rest) :: sheets2)) pdfs =
        createFailedValidation
          ["Excel file missing required columns: " ++
            String.intercalate ", " (missingRequiredColumns r)]) ∧
    (missingRequiredColumns r = [] →
      validateBatchFiles (.workbook ((r :: rest) :: sheets2)) pdfs =
        scanRows (r :: rest) pdfs) := by
  refine ⟨?_, ?_, ?_⟩
  · simp [missingRequiredColumns, List.filter_eq_nil_iff]
  · intro h
    simp [validateBatchFiles, List.isEmpty_iff, h]
  · intro h
    simp [validateBatchFiles, List.isEmpty_iff, h]

/-- Witness for C5 amended at the underscore-headers first row. -/
theorem missingRequiredColumns_rule_witness :
    validateBatchFiles
        (.workbook [[[("certificate_id", "C1"), ("file_name", "a.pdf")]]])
        ["a.pdf"] =
      createFailedValidation
        ["Excel file missing required columns: " ++
          String.intercalate ", "
            (missingRequiredColumns [("certificate_id", "C1"), ("file_name", "a.pdf")])] :=
  (missingRequiredColumns_rule
      [("certificate_id", "C1"), ("file_name", "a.pdf")] [] [] ["a.pdf"]).2.1
    (by decide)

/-- C4 counterexample: an empty ZIP (no extracted files) makes
`processZipFile` throw `No Excel file found in ZIP` to its caller —
no failed `ValidationResult` is produced for this edge case. -/
theorem processZipFile_emptyZip_cex :
    processZipFile [] (.workbook []) =
      .error "No Excel file found in ZIP. Please include a certificate mapping file." :=
  rfl

/-- C4 amended: every input that reaches `validateBatchFiles` —
an unreadable/unparseable spreadsheet, a workbook with no sheets, a
first sheet with zero data rows, or a first row without the required
columns — yields a failed `ValidationResult` carrying an error string,
and `validateBatchFiles` itself never throws (it is total); but a ZIP
containing no Excel file (in particular an empty ZIP) makes
`processZipFile` throw `No Excel file found in ZIP` to its caller
instead of returning a `ValidationResult`. -/
theorem validator_edge_cases (excel : ExcelInput) (pdfs files : List String) :
    (((∃ m, excel = .readError m) ∨
      excel = .workbook [] ∨
      (∃ rest, excel = .workbook ([] :: rest)) ∨
      (∃ r rest sheets2, excel = .workbook ((r :: rest) :: sheets2) ∧
        missingRequiredColumns r ≠ [])) →
      ((validateBatchFiles excel pdfs).isValid = false ∧
       (validateBatchFiles excel pdfs).errors ≠ [])) ∧
    ((∀ f ∈ files, ¬(endsWithI f ".xlsx" = true ∨ endsWithI f ".xls" = true)) →
      processZipFile files excel =
        .error "No Excel file found in ZIP. Please include a certificate mapping file.") := by
  constructor
  · rintro (⟨m, rfl⟩ | rfl | ⟨rest, rfl⟩ | ⟨r, rest, sheets2, rfl, hmiss⟩)
    · exact ⟨rfl, by simp [validateBatchFiles, createFailedValidation]⟩
    · exact ⟨rfl, by simp [validateBatchFiles, createFailedValidation]⟩
    · exact ⟨rfl, by simp [validateBatchFiles, createFailedValidation]⟩
    · constructor
      · simp [validateBatchFiles, List.isEmpty_iff, hmiss, createFailedValidation]
      · simp [validateBatchFiles, List.isEmpty_iff, hmiss, createFailedValidation]
  · intro h
    have : files.find? (fun f => endsWithI f ".xlsx" || endsWithI f ".xls") = none := by
      rw [List.find?_eq_none]
      intro f hf
      simpa using h f hf
    simp [processZipFile, this]

/-- Witness for C4 amended: an unparseable spreadsheet, and a ZIP whose
only file is a PDF. -/
theorem validator_edge_cases_witness :
    ((validateBatchFiles (.readError "corrupt cell") []).isValid = false ∧
     (validateBatchFiles (.readError "corrupt cell") []).errors ≠ []) ∧
    processZipFile ["a.pdf"] (.readError "corrupt cell") =
      .error "No Excel file found in ZIP. Please include a certificate mapping file." :=
  ⟨(validator_edge_cases (.readError "corrupt cell") [] []).1
      (Or.inl ⟨"corrupt cell", rfl⟩),
   (validator_edge_cases (.readError "corrupt cell") [] ["a.pdf"]).2 (by decide)⟩

end CertIssuance

